import Mathlib

/-!
Verification of the inverted-pendulum simulator core
(`src/lib/InvertedPendulum.ts`, enhanced variants of `InvertedPendulum`
and `PIDController`).

The numeric state is embedded over `ℚ` with exact real-number semantics.
The transcendental functions `Math.sin` / `Math.cos` are abstracted as
explicit function parameters `sinf cosf : ℚ → ℚ`, and the constant
`Math.PI` is embedded as `piQ`, the exact rational value of the IEEE-754
double `Math.PI` (884279719003555 / 2^48).  All clamps, branches and the
RK4 combination are transcribed from the source.
-/

/-- The exact rational value of the JavaScript constant `Math.PI`
(the IEEE-754 double closest to π). -/
def piQ : ℚ := 884279719003555 / 281474976710656

/-- First loop of `normalizeAngle`:
`while (angle > Math.PI) angle -= 2 * Math.PI`. -/
def wrapDown (angle : ℚ) : ℚ :=
  if h : piQ < angle then wrapDown (angle - 2 * piQ) else angle
termination_by (Int.ceil ((angle - piQ) / (2 * piQ))).toNat
decreasing_by
  have hpi : (0 : ℚ) < piQ := by norm_num [piQ]
  have h2 : (0 : ℚ) < 2 * piQ := by linarith
  have key : (angle - 2 * piQ - piQ) / (2 * piQ) = (angle - piQ) / (2 * piQ) - 1 := by
    field_simp
    ring
  rw [key, Int.ceil_sub_one]
  have hpos : 0 < (angle - piQ) / (2 * piQ) := div_pos (by linarith) h2
  have hceil : 1 ≤ Int.ceil ((angle - piQ) / (2 * piQ)) := Int.ceil_pos.mpr hpos
  omega

/-- Second loop of `normalizeAngle`:
`while (angle < -Math.PI) angle += 2 * Math.PI`. -/
def wrapUp (angle : ℚ) : ℚ :=
  if h : angle < -piQ then wrapUp (angle + 2 * piQ) else angle
termination_by (Int.ceil ((-piQ - angle) / (2 * piQ))).toNat
decreasing_by
  have hpi : (0 : ℚ) < piQ := by norm_num [piQ]
  have h2 : (0 : ℚ) < 2 * piQ := by linarith
  have key : (-piQ - (angle + 2 * piQ)) / (2 * piQ) = (-piQ - angle) / (2 * piQ) - 1 := by
    field_simp
    ring
  rw [key, Int.ceil_sub_one]
  have hpos : 0 < (-piQ - angle) / (2 * piQ) := div_pos (by linarith) h2
  have hceil : 1 ≤ Int.ceil ((-piQ - angle) / (2 * piQ)) := Int.ceil_pos.mpr hpos
  omega

/-- Source `normalizeAngle(angle)`: both while-loops in source order. -/
def normalizeAngle (angle : ℚ) : ℚ := wrapUp (wrapDown angle)

/-- JavaScript `Math.sign`: 1 for positive, -1 for negative, 0 for zero. -/
def signQ (x : ℚ) : ℚ := if 0 < x then 1 else if x < 0 then -1 else 0

/-! ## PIDController (enhanced variant) -/

/-- State and parameters of the enhanced `PIDController` class. -/
structure PIDController where
  kp : ℚ
  ki : ℚ
  kd : ℚ
  integral : ℚ
  previousError : ℚ
  previousTime : ℚ
  filteredDerivative : ℚ
  useAngleWrapping : Bool
deriving DecidableEq

namespace PIDController

/-- Fixed low-pass filter coefficient `derivativeFilterAlpha = 0.1`. -/
def derivativeFilterAlpha : ℚ := 0.1

/-- Anti-windup bound `integralMax = 100`. -/
def integralMax : ℚ := 100

/-- Anti-windup bound `integralMin = -100`. -/
def integralMin : ℚ := -100

/-- Output bound `outputMax = 50`. -/
def outputMax : ℚ := 50

/-- Output bound `outputMin = -50`. -/
def outputMin : ℚ := -50

/-- The constructor `new PIDController(kp, ki, kd, useAngleWrapping)`:
all mutable state starts at zero. -/
def mkPID (kp ki kd : ℚ) (useAngleWrapping : Bool) : PIDController :=
  { kp := kp, ki := ki, kd := kd, integral := 0, previousError := 0,
    previousTime := 0, filteredDerivative := 0,
    useAngleWrapping := useAngleWrapping }

/-- The error computed at the top of `calculate`:
`setpoint - processVariable`, normalized when `useAngleWrapping`. -/
def errorOf (c : PIDController) (setpoint processVariable : ℚ) : ℚ :=
  if c.useAngleWrapping then normalizeAngle (setpoint - processVariable)
  else setpoint - processVariable

/-- The time step of a `calculate` call:
`previousTime === 0 ? 0.016 : currentTime - previousTime`,
then `Math.max(0.001, Math.min(dt, 0.1))`. -/
def calcdt (c : PIDController) (currentTime : ℚ) : ℚ :=
  max 0.001 (min (if c.previousTime = 0 then 0.016
                  else currentTime - c.previousTime) 0.1)

/-- Proportional term `P = kp * error`. -/
def Pterm (c : PIDController) (setpoint processVariable : ℚ) : ℚ :=
  c.kp * errorOf c setpoint processVariable

/-- The integral value after `integral += error * dt` followed by the
anti-windup clamp `Math.max(integralMin, Math.min(integralMax, integral))`. -/
def integralClamped (c : PIDController) (setpoint processVariable t : ℚ) : ℚ :=
  max integralMin (min integralMax
    (c.integral + errorOf c setpoint processVariable * calcdt c t))

/-- Integral term `I = ki * integral` (after the clamp). -/
def Iterm (c : PIDController) (setpoint processVariable t : ℚ) : ℚ :=
  c.ki * integralClamped c setpoint processVariable t

/-- The value of `filteredDerivative` after the call: updated by the
low-pass filter when `dt > 0`, untouched otherwise. -/
def filteredOf (c : PIDController) (setpoint processVariable t : ℚ) : ℚ :=
  let error := errorOf c setpoint processVariable
  let dt := calcdt c t
  if 0 < dt then
    derivativeFilterAlpha * ((error - c.previousError) / dt) +
      (1 - derivativeFilterAlpha) * c.filteredDerivative
  else c.filteredDerivative

/-- Derivative term `D = kd * derivative`, where `derivative` is the
filtered derivative when `dt > 0` and `0` otherwise. -/
def Dterm (c : PIDController) (setpoint processVariable t : ℚ) : ℚ :=
  c.kd * (if 0 < calcdt c t then filteredOf c setpoint processVariable t else 0)

/-- Method `calculate(setpoint, processVariable, currentTime)`:
returns the mutated controller and the saturated control output. -/
def calculate (c : PIDController) (setpoint processVariable currentTime : ℚ) :
    PIDController × ℚ :=
  let error := errorOf c setpoint processVariable
  let dt := calcdt c currentTime
  let integral2 := integralClamped c setpoint processVariable currentTime
  let output := Pterm c setpoint processVariable +
    Iterm c setpoint processVariable currentTime +
    Dterm c setpoint processVariable currentTime
  let saturatedOutput := max outputMin (min outputMax output)
  let integral3 :=
    if output ≠ saturatedOutput ∧ signQ error = signQ integral2 then
      integral2 - error * dt * 0.5
    else integral2
  ({ c with
      integral := integral3,
      previousError := error,
      previousTime := currentTime,
      filteredDerivative := filteredOf c setpoint processVariable currentTime },
   saturatedOutput)

/-- Method `reset()`: zeroes the mutable controller state, keeps the gains
and the angle-wrapping mode. -/
def reset (c : PIDController) : PIDController :=
  { c with integral := 0, previousError := 0, previousTime := 0,
           filteredDerivative := 0 }

end PIDController

/-! ## InvertedPendulum (enhanced variant) -/

/-- Derivative record `{dx, dv, dtheta, domega}`. -/
structure Deriv where
  dx : ℚ
  dv : ℚ
  dtheta : ℚ
  domega : ℚ
deriving DecidableEq

/-- State and parameters of the enhanced `InvertedPendulum` class. -/
structure InvertedPendulum where
  massCart : ℚ
  massPendulum : ℚ
  length : ℚ
  gravity : ℚ
  friction : ℚ
  airResistance : ℚ
  cartPosition : ℚ
  cartVelocity : ℚ
  pendulumAngle : ℚ
  pendulumAngularVelocity : ℚ
  hasFailed : Bool
deriving DecidableEq

/-- Snapshot returned by `InvertedPendulum.getState()`. -/
structure PendulumState where
  cartPosition : ℚ
  cartVelocity : ℚ
  pendulumAngle : ℚ
  pendulumAngularVelocity : ℚ
  hasFailed : Bool
deriving DecidableEq

/-- Snapshot returned by `InvertedPendulum.getParameters()`. -/
structure PendulumParameters where
  massCart : ℚ
  massPendulum : ℚ
  airResistance : ℚ
deriving DecidableEq

namespace InvertedPendulum

/-- Constant `maxCartPosition = 5.0`. -/
def maxCartPosition : ℚ := 5

/-- Constant `maxCartVelocity = 10.0`. -/
def maxCartVelocity : ℚ := 10

/-- Constant `maxAngularVelocity = 20.0`. -/
def maxAngularVelocity : ℚ := 20

/-- Constant `failureAngleThreshold = Math.PI / 3`. -/
def failureAngleThreshold : ℚ := piQ / 3

/-- Constant `maxForce = 50.0` (local constant in `update`). -/
def maxForce : ℚ := 50

/-- The constructor
`new InvertedPendulum(massCart, massPendulum, length, initialAngle)`;
the remaining fields keep their initializers. -/
def mkPendulum (massCart massPendulum length initialAngle : ℚ) :
    InvertedPendulum :=
  { massCart := massCart, massPendulum := massPendulum, length := length,
    gravity := 9.81, friction := 0.1, airResistance := 0.01,
    cartPosition := 0, cartVelocity := 0, pendulumAngle := initialAngle,
    pendulumAngularVelocity := 0, hasFailed := false }

/-- The RK4 intermediate shift `(k ? k.dv * dt : 0)` of `derivative`. -/
def kdv (k : Option Deriv) (dt : ℚ) : ℚ :=
  match k with
  | some kk => kk.dv * dt
  | none => 0

/-- The RK4 intermediate shift `(k ? k.dtheta * dt : 0)` of `derivative`. -/
def kdtheta (k : Option Deriv) (dt : ℚ) : ℚ :=
  match k with
  | some kk => kk.dtheta * dt
  | none => 0

/-- The RK4 intermediate shift `(k ? k.domega * dt : 0)` of `derivative`. -/
def kdomega (k : Option Deriv) (dt : ℚ) : ℚ :=
  match k with
  | some kk => kk.domega * dt
  | none => 0

/-- The non-degenerate branch of `derivative`: the equations of motion
with the divisions by `denominator` performed. -/
def derivAux (sinf cosf : ℚ → ℚ) (p : InvertedPendulum)
    (force v theta omega : ℚ) : Deriv :=
  let sinTheta := sinf theta
  let cosTheta := cosf theta
  let totalMass := p.massCart + p.massPendulum
  let denominator := totalMass - p.massPendulum * cosTheta * cosTheta
  let frictionForce := p.friction * v + 0.01 * v * |v|
  let cartAccel :=
    (force - frictionForce +
     p.massPendulum * p.length * omega * omega * sinTheta -
     p.massPendulum * p.gravity * sinTheta * cosTheta) / denominator
  let angularDamping := p.airResistance * omega + 0.001 * omega * |omega|
  let angularAccel :=
    (force * cosTheta - frictionForce * cosTheta +
     totalMass * p.gravity * sinTheta +
     p.massPendulum * p.length * omega * omega * sinTheta * cosTheta -
     angularDamping * p.length) /
    (p.length * denominator)
  { dx := v, dv := cartAccel, dtheta := omega, domega := angularAccel }

/-- Method `derivative(force, dt = 0, k?)`: evaluates the equations of motion at
the current state shifted by `k * dt` (the unused `const x` of the source
is omitted), substituting the degenerate derivative when
`|denominator| < 0.001`.  Total by construction: no exception path
exists. -/
def derivative (sinf cosf : ℚ → ℚ) (p : InvertedPendulum)
    (force : ℚ) (dt : ℚ) (k : Option Deriv) : Deriv :=
  let v := p.cartVelocity + kdv k dt
  let theta := p.pendulumAngle + kdtheta k dt
  let omega := p.pendulumAngularVelocity + kdomega k dt
  let cosTheta := cosf theta
  let totalMass := p.massCart + p.massPendulum
  let denominator := totalMass - p.massPendulum * cosTheta * cosTheta
  if |denominator| < 0.001 then
    { dx := v, dv := 0, dtheta := omega, domega := 0 }
  else
    derivAux sinf cosf p force v theta omega

/-- The RK4 integration step of `update` (lines computing `k1..k4` and the
four `+=` state updates), applied after force/dt clamping and the failure
check. -/
def rk4Step (sinf cosf : ℚ → ℚ) (p : InvertedPendulum) (force dt : ℚ) :
    InvertedPendulum :=
  let k1 := derivative sinf cosf p force 0 none
  let k2 := derivative sinf cosf p force (dt / 2) (some k1)
  let k3 := derivative sinf cosf p force (dt / 2) (some k2)
  let k4 := derivative sinf cosf p force dt (some k3)
  { p with
    cartPosition := p.cartPosition +
      (dt / 6) * (k1.dx + 2 * k2.dx + 2 * k3.dx + k4.dx),
    cartVelocity := p.cartVelocity +
      (dt / 6) * (k1.dv + 2 * k2.dv + 2 * k3.dv + k4.dv),
    pendulumAngle := p.pendulumAngle +
      (dt / 6) * (k1.dtheta + 2 * k2.dtheta + 2 * k3.dtheta + k4.dtheta),
    pendulumAngularVelocity := p.pendulumAngularVelocity +
      (dt / 6) * (k1.domega + 2 * k2.domega + 2 * k3.domega + k4.domega) }

/-- The failure check at the top of `update`:
`if (Math.abs(pendulumAngle) > failureAngleThreshold) hasFailed = true`. -/
def checkFailure (p : InvertedPendulum) : InvertedPendulum :=
  if failureAngleThreshold < |p.pendulumAngle| then { p with hasFailed := true }
  else p

/-- The soft velocity limits of `update` (cart velocity, then angular
velocity, each damped by the 0.95 factor). -/
def applyVelocityLimits (p : InvertedPendulum) : InvertedPendulum :=
  let p1 :=
    if maxCartVelocity < |p.cartVelocity| then
      { p with cartVelocity := signQ p.cartVelocity * maxCartVelocity * 0.95 }
    else p
  if maxAngularVelocity < |p1.pendulumAngularVelocity| then
    let w := signQ p1.pendulumAngularVelocity * maxAngularVelocity * 0.95
    { p1 with pendulumAngularVelocity := w }
  else p1

/-- The hard position limit of `update`: clamp to the boundary and bounce
the velocity with `cartVelocity *= -0.5`. -/
def applyPositionLimit (p : InvertedPendulum) : InvertedPendulum :=
  if maxCartPosition < |p.cartPosition| then
    { p with cartPosition := signQ p.cartPosition * maxCartPosition,
             cartVelocity := p.cartVelocity * (-0.5) }
  else p

/-- The state reached inside `update` just before the hard position limit:
force clamp, dt clamp, failure check, RK4 step, soft velocity limits. -/
def preClamp (sinf cosf : ℚ → ℚ) (p : InvertedPendulum) (force dt : ℚ) :
    InvertedPendulum :=
  applyVelocityLimits (rk4Step sinf cosf (checkFailure p)
    (max (-maxForce) (min maxForce force)) (min dt 0.02))

/-- Method `update(force, dt)`: force clamp, dt clamp, failure check, RK4 step,
velocity limits, position limit, angle normalization — in source order. -/
def update (sinf cosf : ℚ → ℚ) (p : InvertedPendulum) (force dt : ℚ) :
    InvertedPendulum :=
  let p4 := applyPositionLimit (preClamp sinf cosf p force dt)
  { p4 with pendulumAngle := normalizeAngle p4.pendulumAngle }

/-- Method `reset(initialAngle)`. -/
def reset (p : InvertedPendulum) (initialAngle : ℚ) : InvertedPendulum :=
  { p with cartPosition := 0, cartVelocity := 0,
           pendulumAngle := initialAngle, pendulumAngularVelocity := 0,
           hasFailed := false }

/-- Method `getState()`. -/
def getState (p : InvertedPendulum) : PendulumState :=
  { cartPosition := p.cartPosition, cartVelocity := p.cartVelocity,
    pendulumAngle := p.pendulumAngle,
    pendulumAngularVelocity := p.pendulumAngularVelocity,
    hasFailed := p.hasFailed }

/-- Method `setMasses(cartMass, pendulumMass)`: floors at 0.1 and 0.01. -/
def setMasses (p : InvertedPendulum) (cartMass pendulumMass : ℚ) :
    InvertedPendulum :=
  { p with massCart := max 0.1 cartMass,
           massPendulum := max 0.01 pendulumMass }

/-- Method `setAirResistance(resistance)`: floors at 0. -/
def setAirResistance (p : InvertedPendulum) (resistance : ℚ) :
    InvertedPendulum :=
  { p with airResistance := max 0 resistance }

/-- Method `getParameters()`. -/
def getParameters (p : InvertedPendulum) : PendulumParameters :=
  { massCart := p.massCart, massPendulum := p.massPendulum,
    airResistance := p.airResistance }

end InvertedPendulum

/-- The mutating operations a driver can perform on an `InvertedPendulum`
between two observations (`getState` / `getParameters` do not mutate). -/
inductive PendulumOp where
  | update (force dt : ℚ)
  | setMasses (cartMass pendulumMass : ℚ)
  | setAirResistance (resistance : ℚ)
  | reset (initialAngle : ℚ)

/-- Interpretation of one operation. -/
def applyOp (sinf cosf : ℚ → ℚ) (p : InvertedPendulum) :
    PendulumOp → InvertedPendulum
  | PendulumOp.update force dt => InvertedPendulum.update sinf cosf p force dt
  | PendulumOp.setMasses a b => InvertedPendulum.setMasses p a b
  | PendulumOp.setAirResistance r => InvertedPendulum.setAirResistance p r
  | PendulumOp.reset a => InvertedPendulum.reset p a

/-- Interpretation of a sequence of operations, first element first. -/
def applyOps (sinf cosf : ℚ → ℚ) (p : InvertedPendulum)
    (ops : List PendulumOp) : InvertedPendulum :=
  ops.foldl (applyOp sinf cosf) p

/-- Does the operation call `reset`? -/
def PendulumOp.isReset : PendulumOp → Bool
  | PendulumOp.reset _ => true
  | _ => false

/-! ## Theorems -/

open PIDController InvertedPendulum

theorem piQ_pos : (0 : ℚ) < piQ := by norm_num [piQ]

theorem wrapDown_le (a : ℚ) : wrapDown a ≤ piQ := by
  induction a using wrapDown.induct with
  | case1 a h ih => rw [wrapDown, dif_pos h]; exact ih
  | case2 a h => rw [wrapDown, dif_neg h]; linarith [not_lt.mp h]

theorem wrapUp_ge (a : ℚ) : -piQ ≤ wrapUp a := by
  induction a using wrapUp.induct with
  | case1 a h ih => rw [wrapUp, dif_pos h]; exact ih
  | case2 a h => rw [wrapUp, dif_neg h]; linarith [not_lt.mp h]

theorem wrapUp_le (a : ℚ) : a ≤ piQ → wrapUp a ≤ piQ := by
  induction a using wrapUp.induct with
  | case1 a h ih =>
    intro _
    rw [wrapUp, dif_pos h]
    exact ih (by linarith [piQ_pos])
  | case2 a h =>
    intro ha
    rw [wrapUp, dif_neg h]
    exact ha

theorem normalizeAngle_mem (a : ℚ) :
    -piQ ≤ normalizeAngle a ∧ normalizeAngle a ≤ piQ :=
  ⟨wrapUp_ge _, wrapUp_le _ (wrapDown_le a)⟩

theorem normalizeAngle_neg_pi : normalizeAngle (-piQ) = -piQ := by
  have h1 : wrapDown (-piQ) = -piQ := by
    rw [wrapDown, dif_neg]
    simp only [not_lt]
    linarith [piQ_pos]
  have h2 : wrapUp (-piQ) = -piQ := by
    rw [wrapUp, dif_neg (lt_irrefl _)]
  rw [normalizeAngle, h1, h2]

/-- C6: after any prior sequence of `update` calls, `reset(θ0)` followed by
`getState()` yields exactly cartPosition = 0, cartVelocity = 0,
pendulumAngle = θ0, pendulumAngularVelocity = 0 and hasFailed = false. -/
theorem reset_getState_exact (sinf cosf : ℚ → ℚ) (p : InvertedPendulum)
    (forces : List (ℚ × ℚ)) (theta0 : ℚ) :
    InvertedPendulum.getState
      (InvertedPendulum.reset
        (applyOps sinf cosf p (forces.map (fun fd => PendulumOp.update fd.1 fd.2)))
        theta0) =
      { cartPosition := 0, cartVelocity := 0, pendulumAngle := theta0,
        pendulumAngularVelocity := 0, hasFailed := false } := rfl

/-- C9: `reset` leaves every configured parameter unchanged and writes only
the state fields: for `InvertedPendulum`, masses, length, gravity, friction
and air resistance survive `reset(θ0)`; for `PIDController`, the gains and
the angle-wrapping mode survive `reset()`. -/
theorem reset_preserves_parameters (p : InvertedPendulum) (theta0 : ℚ)
    (c : PIDController) :
    (InvertedPendulum.reset p theta0).massCart = p.massCart ∧
    (InvertedPendulum.reset p theta0).massPendulum = p.massPendulum ∧
    (InvertedPendulum.reset p theta0).length = p.length ∧
    (InvertedPendulum.reset p theta0).gravity = p.gravity ∧
    (InvertedPendulum.reset p theta0).friction = p.friction ∧
    (InvertedPendulum.reset p theta0).airResistance = p.airResistance ∧
    (InvertedPendulum.reset p theta0).cartPosition = 0 ∧
    (InvertedPendulum.reset p theta0).cartVelocity = 0 ∧
    (InvertedPendulum.reset p theta0).pendulumAngle = theta0 ∧
    (InvertedPendulum.reset p theta0).pendulumAngularVelocity = 0 ∧
    (InvertedPendulum.reset p theta0).hasFailed = false ∧
    (PIDController.reset c).kp = c.kp ∧
    (PIDController.reset c).ki = c.ki ∧
    (PIDController.reset c).kd = c.kd ∧
    (PIDController.reset c).useAngleWrapping = c.useAngleWrapping ∧
    (PIDController.reset c).integral = 0 ∧
    (PIDController.reset c).previousError = 0 ∧
    (PIDController.reset c).previousTime = 0 ∧
    (PIDController.reset c).filteredDerivative = 0 := by
  refine ⟨rfl, rfl, rfl, rfl, rfl, rfl, rfl, rfl, rfl, rfl,
    rfl, rfl, rfl, rfl, rfl, rfl, rfl, rfl, rfl⟩

/-- C7: the time step of a `calculate` call is 0.016 when `previousTime = 0`
and `currentTime - previousTime` otherwise, clamped into [0.001, 0.1], and
it is the step fed to the integral accumulation. -/
theorem calcdt_spec (c : PIDController) (setpoint processVariable t : ℚ) :
    calcdt c t =
      max 0.001 (min (if c.previousTime = 0 then 0.016
                      else t - c.previousTime) 0.1) ∧
    (c.previousTime = 0 → calcdt c t = 0.016) ∧
    (c.previousTime ≠ 0 → calcdt c t = max 0.001 (min (t - c.previousTime) 0.1)) ∧
    0.001 ≤ calcdt c t ∧ calcdt c t ≤ 0.1 ∧
    integralClamped c setpoint processVariable t =
      max integralMin (min integralMax
        (c.integral + errorOf c setpoint processVariable * calcdt c t)) := by
  refine ⟨rfl, ?_, ?_, ?_, ?_, rfl⟩
  · intro h
    rw [calcdt, if_pos h]
    norm_num
  · intro h
    rw [calcdt, if_neg h]
  · exact le_max_left _ _
  · exact max_le (by norm_num) (min_le_right _ _)

/-- Witness for `calcdt_spec` at a fresh controller (previousTime = 0). -/
theorem calcdt_spec_witness :
    (mkPID 1 1 1 false).previousTime = 0 ∧ calcdt (mkPID 1 1 1 false) 5 = 0.016 :=
  ⟨rfl, (calcdt_spec (mkPID 1 1 1 false) 0 0 5).2.1 rfl⟩

/-- C5: `calculate` returns exactly `clamp(P + I + D, -50, 50)`, hence the
return value always lies in [-50, 50]; with `kp = 1000` a large error
saturates the output at exactly +50 or -50. -/
theorem calculate_output_saturation (c : PIDController)
    (setpoint processVariable t : ℚ) :
    (calculate c setpoint processVariable t).2 =
      max (-50) (min 50 (Pterm c setpoint processVariable +
        Iterm c setpoint processVariable t + Dterm c setpoint processVariable t)) ∧
    -50 ≤ (calculate c setpoint processVariable t).2 ∧
    (calculate c setpoint processVariable t).2 ≤ 50 ∧
    (calculate (mkPID 1000 0 0 false) 0 (-1) 1).2 = 50 ∧
    (calculate (mkPID 1000 0 0 false) 0 1 1).2 = -50 := by
  have houts : (calculate c setpoint processVariable t).2 =
      max outputMin (min outputMax (Pterm c setpoint processVariable +
        Iterm c setpoint processVariable t +
        Dterm c setpoint processVariable t)) := rfl
  refine ⟨houts, ?_, ?_, ?_, ?_⟩
  · rw [houts]
    exact le_trans (by norm_num [outputMin]) (le_max_left _ _)
  · rw [houts]
    exact max_le (by norm_num [outputMin]) (le_trans (min_le_left _ _)
      (by norm_num [outputMax]))
  · norm_num [calculate, mkPID, Pterm, Iterm, Dterm, integralClamped, errorOf,
      calcdt, filteredOf, outputMin, outputMax, integralMin, integralMax,
      derivativeFilterAlpha, min_def, max_def]
  · norm_num [calculate, mkPID, Pterm, Iterm, Dterm, integralClamped, errorOf,
      calcdt, filteredOf, outputMin, outputMax, integralMin, integralMax,
      derivativeFilterAlpha, min_def, max_def]

/-- The integral stored by `calculate`, as the source's conditional:
the clamped value, minus the back-calculation correction when the output
was saturated and the error pushes with the integral. -/
theorem calculate_fst_integral (c : PIDController) (setpoint processVariable t : ℚ) :
    (calculate c setpoint processVariable t).1.integral =
      (if Pterm c setpoint processVariable + Iterm c setpoint processVariable t +
            Dterm c setpoint processVariable t ≠
          max outputMin (min outputMax (Pterm c setpoint processVariable +
            Iterm c setpoint processVariable t + Dterm c setpoint processVariable t)) ∧
          signQ (errorOf c setpoint processVariable) =
            signQ (integralClamped c setpoint processVariable t) then
        integralClamped c setpoint processVariable t -
          errorOf c setpoint processVariable * calcdt c t * 0.5
      else integralClamped c setpoint processVariable t) := rfl

/-- C1 (amended): in every `calculate` call the accumulated integral is
clamped into [-100, 100]; the stored end-of-call integral is either that
clamped value or the clamped value minus the anti-windup correction
`error * dt * 0.5`, and in the latter case it may leave [-100, 100]. -/
theorem calculate_integral_clamped_bound (c : PIDController)
    (setpoint processVariable t : ℚ) :
    integralMin ≤ integralClamped c setpoint processVariable t ∧
    integralClamped c setpoint processVariable t ≤ integralMax ∧
    ((calculate c setpoint processVariable t).1.integral =
        integralClamped c setpoint processVariable t ∨
      (calculate c setpoint processVariable t).1.integral =
        integralClamped c setpoint processVariable t -
          errorOf c setpoint processVariable * calcdt c t * 0.5) := by
  refine ⟨le_max_left _ _,
    max_le (by norm_num [integralMin, integralMax]) (min_le_left _ _), ?_⟩
  rw [calculate_fst_integral]
  split
  · exact Or.inr rfl
  · exact Or.inl rfl

/-- C1 (counterexample): a single `calculate` call on a fresh controller
with kp = ki = 1, kd = 0 and error 100000 saturates the output, fires the
anti-windup back-calculation, and leaves the internal integral at -700,
outside [-100, 100]. -/
theorem calculate_integral_leaves_bounds :
    (calculate (mkPID 1 1 0 false) 100000 0 1).1.integral = -700 ∧
    ¬ (integralMin ≤ (calculate (mkPID 1 1 0 false) 100000 0 1).1.integral) := by
  have h : (calculate (mkPID 1 1 0 false) 100000 0 1).1.integral = -700 := by
    rw [calculate_fst_integral]
    norm_num [mkPID, Pterm, Iterm, Dterm, integralClamped, errorOf, calcdt,
      filteredOf, outputMin, outputMax, integralMin, integralMax,
      derivativeFilterAlpha, signQ, min_def, max_def]
  exact ⟨h, by rw [h]; norm_num [integralMin]⟩

/-- The angle stored by `update` is the normalization of the angle reached
after the position limit. -/
theorem update_pendulumAngle (sinf cosf : ℚ → ℚ) (p : InvertedPendulum)
    (force dt : ℚ) :
    (update sinf cosf p force dt).pendulumAngle =
      normalizeAngle
        ((applyPositionLimit (preClamp sinf cosf p force dt)).pendulumAngle) := rfl

/-- C2 (amended): after every `update` call the pendulum angle lies in the
closed interval [-π, π].  The endpoint -π is included: `normalizeAngle`
leaves an input of exactly -π unchanged. -/
theorem update_angle_in_closed_interval (sinf cosf : ℚ → ℚ)
    (p : InvertedPendulum) (force dt : ℚ) :
    -piQ ≤ (update sinf cosf p force dt).pendulumAngle ∧
    (update sinf cosf p force dt).pendulumAngle ≤ piQ := by
  rw [update_pendulumAngle]
  exact normalizeAngle_mem _

/-- C2 (counterexample): a pendulum constructed at angle exactly -π and
updated with zero force and zero dt keeps pendulumAngle = -π, which is not
in the half-open interval (-π, π]. -/
theorem update_angle_neg_pi_reachable :
    (update (fun _ => 0) (fun _ => 0) (mkPendulum 1 (1/10) 1 (-piQ))
        0 0).pendulumAngle = -piQ ∧
    ¬ (-piQ < (update (fun _ => 0) (fun _ => 0) (mkPendulum 1 (1/10) 1 (-piQ))
        0 0).pendulumAngle) := by
  have hmid : (applyPositionLimit (preClamp (fun _ => 0) (fun _ => 0)
      (mkPendulum 1 (1/10) 1 (-piQ)) 0 0)).pendulumAngle = -piQ := by
    norm_num [applyPositionLimit, preClamp, applyVelocityLimits, rk4Step,
      checkFailure, mkPendulum, derivative, derivAux, kdv, kdtheta, kdomega,
      maxForce, maxCartPosition, maxCartVelocity, maxAngularVelocity,
      failureAngleThreshold, signQ, piQ, abs_eq_max_neg, min_def, max_def]
  have h1 : (update (fun _ => 0) (fun _ => 0) (mkPendulum 1 (1/10) 1 (-piQ))
      0 0).pendulumAngle = -piQ := by
    rw [update_pendulumAngle, hmid, normalizeAngle_neg_pi]
  exact ⟨h1, by rw [h1]; exact lt_irrefl _⟩

/-- The final angle normalization of `update` does not touch the cart
position or velocity. -/
theorem update_cart_fields (sinf cosf : ℚ → ℚ) (p : InvertedPendulum)
    (force dt : ℚ) :
    (update sinf cosf p force dt).cartPosition =
      (applyPositionLimit (preClamp sinf cosf p force dt)).cartPosition ∧
    (update sinf cosf p force dt).cartVelocity =
      (applyPositionLimit (preClamp sinf cosf p force dt)).cartVelocity :=
  ⟨rfl, rfl⟩

theorem abs_signQ_mul_max_le (x : ℚ) :
    |signQ x * maxCartPosition| ≤ maxCartPosition := by
  unfold signQ maxCartPosition
  split_ifs <;> norm_num

/-- C3: after every `update` call `|cartPosition| ≤ maxCartPosition = 5`;
when the state reached just before the position limit has
`|cartPosition| > 5`, the call stores `sign(cartPosition) * 5` as position
and `cartVelocity * (-0.5)` as velocity, otherwise both pass through. -/
theorem update_position_clamp (sinf cosf : ℚ → ℚ) (p : InvertedPendulum)
    (force dt : ℚ) :
    |(update sinf cosf p force dt).cartPosition| ≤ maxCartPosition ∧
    maxCartPosition = 5 ∧
    (update sinf cosf p force dt).cartPosition =
      (if maxCartPosition < |(preClamp sinf cosf p force dt).cartPosition| then
        signQ (preClamp sinf cosf p force dt).cartPosition * maxCartPosition
      else (preClamp sinf cosf p force dt).cartPosition) ∧
    (update sinf cosf p force dt).cartVelocity =
      (if maxCartPosition < |(preClamp sinf cosf p force dt).cartPosition| then
        (preClamp sinf cosf p force dt).cartVelocity * (-0.5)
      else (preClamp sinf cosf p force dt).cartVelocity) := by
  obtain ⟨hpos, hvel⟩ := update_cart_fields sinf cosf p force dt
  by_cases h : maxCartPosition < |(preClamp sinf cosf p force dt).cartPosition|
  · have hP : (applyPositionLimit (preClamp sinf cosf p force dt)).cartPosition =
        signQ (preClamp sinf cosf p force dt).cartPosition * maxCartPosition := by
      rw [applyPositionLimit, if_pos h]
    have hV : (applyPositionLimit (preClamp sinf cosf p force dt)).cartVelocity =
        (preClamp sinf cosf p force dt).cartVelocity * (-0.5) := by
      rw [applyPositionLimit, if_pos h]
    refine ⟨?_, rfl, ?_, ?_⟩
    · rw [hpos, hP]
      exact abs_signQ_mul_max_le _
    · rw [hpos, hP, if_pos h]
    · rw [hvel, hV, if_pos h]
  · have hP : (applyPositionLimit (preClamp sinf cosf p force dt)).cartPosition =
        (preClamp sinf cosf p force dt).cartPosition := by
      rw [applyPositionLimit, if_neg h]
    have hV : (applyPositionLimit (preClamp sinf cosf p force dt)).cartVelocity =
        (preClamp sinf cosf p force dt).cartVelocity := by
      rw [applyPositionLimit, if_neg h]
    refine ⟨?_, rfl, ?_, ?_⟩
    · rw [hpos, hP]
      exact not_lt.mp h
    · rw [hpos, hP, if_neg h]
    · rw [hvel, hV, if_neg h]

theorem rk4Step_hasFailed (sinf cosf : ℚ → ℚ) (p : InvertedPendulum)
    (force dt : ℚ) : (rk4Step sinf cosf p force dt).hasFailed = p.hasFailed := rfl

theorem applyVelocityLimits_hasFailed (p : InvertedPendulum) :
    (applyVelocityLimits p).hasFailed = p.hasFailed := by
  unfold applyVelocityLimits
  dsimp only
  split <;> split <;> rfl

theorem applyPositionLimit_hasFailed (p : InvertedPendulum) :
    (applyPositionLimit p).hasFailed = p.hasFailed := by
  unfold applyPositionLimit
  split <;> rfl

theorem checkFailure_hasFailed (p : InvertedPendulum) :
    (checkFailure p).hasFailed =
      (p.hasFailed || decide (failureAngleThreshold < |p.pendulumAngle|)) := by
  unfold checkFailure
  split
  · rename_i h
    simp [h]
  · rename_i h
    simp [h]

theorem update_hasFailed (sinf cosf : ℚ → ℚ) (p : InvertedPendulum)
    (force dt : ℚ) :
    (update sinf cosf p force dt).hasFailed =
      (p.hasFailed || decide (failureAngleThreshold < |p.pendulumAngle|)) := by
  have h1 : (update sinf cosf p force dt).hasFailed =
      (applyPositionLimit (preClamp sinf cosf p force dt)).hasFailed := rfl
  have h2 : (preClamp sinf cosf p force dt).hasFailed =
      (checkFailure p).hasFailed := by
    rw [preClamp, applyVelocityLimits_hasFailed, rk4Step_hasFailed]
  rw [h1, applyPositionLimit_hasFailed, h2, checkFailure_hasFailed]

/-- C4: `update` sets `hasFailed` exactly when it starts with
`|pendulumAngle| > π/3` (or it was already set); `setMasses`,
`setAirResistance` and `getState` never change it; and once true it stays
true across any sequence of non-`reset` operations. -/
theorem hasFailed_monotone (sinf cosf : ℚ → ℚ) (p : InvertedPendulum)
    (force dt cartMass pendulumMass resistance : ℚ) (ops : List PendulumOp) :
    ((update sinf cosf p force dt).hasFailed = true ↔
      (p.hasFailed = true ∨ failureAngleThreshold < |p.pendulumAngle|)) ∧
    (setMasses p cartMass pendulumMass).hasFailed = p.hasFailed ∧
    (setAirResistance p resistance).hasFailed = p.hasFailed ∧
    (getState p).hasFailed = p.hasFailed ∧
    (p.hasFailed = true → (∀ op ∈ ops, op.isReset = false) →
      (applyOps sinf cosf p ops).hasFailed = true) := by
  refine ⟨?_, rfl, rfl, rfl, ?_⟩
  · rw [update_hasFailed]
    simp [Bool.or_eq_true, decide_eq_true_eq]
  · induction ops generalizing p with
    | nil => exact fun h _ => h
    | cons op rest ih =>
      intro h hnr
      have hop : (applyOp sinf cosf p op).hasFailed = true := by
        cases op with
        | update f d =>
          have hu : (applyOp sinf cosf p (PendulumOp.update f d)).hasFailed =
              (p.hasFailed || decide (failureAngleThreshold < |p.pendulumAngle|)) :=
            update_hasFailed sinf cosf p f d
          rw [hu, h, Bool.true_or]
        | setMasses a b => exact h
        | setAirResistance r => exact h
        | reset a =>
          have hr := hnr (PendulumOp.reset a) (List.mem_cons_self _ _)
          simp [PendulumOp.isReset] at hr
      exact ih (applyOp sinf cosf p op) hop
        (fun o ho => hnr o (List.mem_cons_of_mem _ ho))

/-- Witness for `hasFailed_monotone`: a failed pendulum stays failed across
a concrete non-reset operation sequence. -/
theorem hasFailed_monotone_witness :
    (applyOps (fun _ => 0) (fun _ => 0)
      { mkPendulum 1 (1/10) 1 0 with hasFailed := true }
      [PendulumOp.setMasses 2 2, PendulumOp.setAirResistance 3]).hasFailed =
      true :=
  (hasFailed_monotone (fun _ => 0) (fun _ => 0)
    { mkPendulum 1 (1/10) 1 0 with hasFailed := true } 0 0 0 0 0
    [PendulumOp.setMasses 2 2, PendulumOp.setAirResistance 3]).2.2.2.2
    rfl (by intro op hop; fin_cases hop <;> rfl)

/-- Lemma: `derivative` written as a single conditional on its denominator. -/
theorem derivative_eq_ite (sinf cosf : ℚ → ℚ) (p : InvertedPendulum)
    (force dt : ℚ) (k : Option Deriv) :
    derivative sinf cosf p force dt k =
      (if |p.massCart + p.massPendulum - p.massPendulum *
            cosf (p.pendulumAngle + kdtheta k dt) *
            cosf (p.pendulumAngle + kdtheta k dt)| < 0.001 then
        { dx := p.cartVelocity + kdv k dt, dv := 0,
          dtheta := p.pendulumAngularVelocity + kdomega k dt, domega := 0 }
      else
        derivAux sinf cosf p force (p.cartVelocity + kdv k dt)
          (p.pendulumAngle + kdtheta k dt)
          (p.pendulumAngularVelocity + kdomega k dt)) := rfl

/-- C8: for every evaluation of `derivative`, the degenerate derivative
`(dx = v, dv = 0, dθ = ω, dω = 0)` is returned when
`|totalMass - massPendulum * cos²θ| < 0.001`, and otherwise the equations
of motion with the divisions performed (`derivAux`); the function is total,
so no exception is raised in either case. -/
theorem derivative_branches (sinf cosf : ℚ → ℚ) (p : InvertedPendulum)
    (force dt : ℚ) (k : Option Deriv) :
    (|p.massCart + p.massPendulum - p.massPendulum *
        cosf (p.pendulumAngle + kdtheta k dt) *
        cosf (p.pendulumAngle + kdtheta k dt)| < 0.001 →
      derivative sinf cosf p force dt k =
        { dx := p.cartVelocity + kdv k dt, dv := 0,
          dtheta := p.pendulumAngularVelocity + kdomega k dt, domega := 0 }) ∧
    (¬ |p.massCart + p.massPendulum - p.massPendulum *
        cosf (p.pendulumAngle + kdtheta k dt) *
        cosf (p.pendulumAngle + kdtheta k dt)| < 0.001 →
      derivative sinf cosf p force dt k =
        derivAux sinf cosf p force (p.cartVelocity + kdv k dt)
          (p.pendulumAngle + kdtheta k dt)
          (p.pendulumAngularVelocity + kdomega k dt)) := by
  constructor <;> intro h
  · rw [derivative_eq_ite, if_pos h]
  · rw [derivative_eq_ite, if_neg h]

/-- Witness for `derivative_branches`: with both masses zero the
denominator is 0 and the degenerate derivative is returned. -/
theorem derivative_branches_witness :
    derivative (fun _ => 0) (fun _ => 1)
      { massCart := 0, massPendulum := 0, length := 1, gravity := 981/100,
        friction := 1/10, airResistance := 1/100, cartPosition := 0,
        cartVelocity := 3, pendulumAngle := 0, pendulumAngularVelocity := 5,
        hasFailed := false } 7 0 none =
      { dx := 3 + kdv none 0, dv := 0, dtheta := 5 + kdomega none 0,
        domega := 0 } :=
  (derivative_branches (fun _ => 0) (fun _ => 1)
    { massCart := 0, massPendulum := 0, length := 1, gravity := 981/100,
      friction := 1/10, airResistance := 1/100, cartPosition := 0,
      cartVelocity := 3, pendulumAngle := 0, pendulumAngularVelocity := 5,
      hasFailed := false } 7 0 none).1 (by norm_num [kdtheta])

/-- C10 (amended): whenever `massCart ≥ 0.1` and `massPendulum ≥ 0.01`
(which `setMasses` guarantees by flooring), the denominator equals
`massCart + massPendulum * sin²θ ≥ 0.1 > 0.001` for every θ with
`sin²θ + cos²θ = 1`, so the degenerate branch of `derivative` is
unreachable and the `cartAccel` division (divisor: `denominator`) is by a
value bounded away from zero.  The `angularAccel` division's divisor is
`length * denominator`, which the mass floors alone do not bound away from
zero: it is nonzero whenever `length ≠ 0`, and zero when `length = 0`. -/
theorem denominator_bounded_away (sinf cosf : ℚ → ℚ)
    (htrig : ∀ x, sinf x ^ 2 + cosf x ^ 2 = 1)
    (p : InvertedPendulum) (hmc : 0.1 ≤ p.massCart)
    (hmp : 0.01 ≤ p.massPendulum)
    (force dt : ℚ) (k : Option Deriv) (cartMass pendulumMass : ℚ) :
    0.1 ≤ (setMasses p cartMass pendulumMass).massCart ∧
    0.01 ≤ (setMasses p cartMass pendulumMass).massPendulum ∧
    p.massCart + p.massPendulum - p.massPendulum *
        cosf (p.pendulumAngle + kdtheta k dt) *
        cosf (p.pendulumAngle + kdtheta k dt) =
      p.massCart + p.massPendulum * sinf (p.pendulumAngle + kdtheta k dt) ^ 2 ∧
    0.1 ≤ p.massCart + p.massPendulum - p.massPendulum *
        cosf (p.pendulumAngle + kdtheta k dt) *
        cosf (p.pendulumAngle + kdtheta k dt) ∧
    ¬ (|p.massCart + p.massPendulum - p.massPendulum *
        cosf (p.pendulumAngle + kdtheta k dt) *
        cosf (p.pendulumAngle + kdtheta k dt)| < 0.001) ∧
    derivative sinf cosf p force dt k =
      derivAux sinf cosf p force (p.cartVelocity + kdv k dt)
        (p.pendulumAngle + kdtheta k dt)
        (p.pendulumAngularVelocity + kdomega k dt) ∧
    (p.length ≠ 0 →
      p.length * (p.massCart + p.massPendulum - p.massPendulum *
        cosf (p.pendulumAngle + kdtheta k dt) *
        cosf (p.pendulumAngle + kdtheta k dt)) ≠ 0) := by
  have hid : p.massCart + p.massPendulum - p.massPendulum *
      cosf (p.pendulumAngle + kdtheta k dt) *
      cosf (p.pendulumAngle + kdtheta k dt) =
      p.massCart + p.massPendulum * sinf (p.pendulumAngle + kdtheta k dt) ^ 2 := by
    linear_combination (-p.massPendulum) * htrig (p.pendulumAngle + kdtheta k dt)
  have hge : (0.1 : ℚ) ≤ p.massCart + p.massPendulum - p.massPendulum *
      cosf (p.pendulumAngle + kdtheta k dt) *
      cosf (p.pendulumAngle + kdtheta k dt) := by
    rw [hid]
    have hnn : 0 ≤ p.massPendulum * sinf (p.pendulumAngle + kdtheta k dt) ^ 2 :=
      mul_nonneg (by linarith) (sq_nonneg _)
    linarith
  have habs : ¬ (|p.massCart + p.massPendulum - p.massPendulum *
      cosf (p.pendulumAngle + kdtheta k dt) *
      cosf (p.pendulumAngle + kdtheta k dt)| < 0.001) := by
    rw [not_lt]
    exact le_trans (by norm_num) (le_trans hge (le_abs_self _))
  refine ⟨le_max_left _ _, le_max_left _ _, hid, hge, habs, ?_, ?_⟩
  · rw [derivative_eq_ite, if_neg habs]
  · intro hlen
    exact mul_ne_zero hlen (ne_of_gt (lt_of_lt_of_le (by norm_num) hge))

/-- Witness for `denominator_bounded_away` at default construction
parameters and constant trigonometric witnesses. -/
theorem denominator_bounded_away_witness :
    ((0 : ℚ) ^ 2 + (1 : ℚ) ^ 2 = 1) ∧
    (0.1 : ℚ) ≤ (mkPendulum 1 (1/10) 1 0).massCart ∧
    (0.01 : ℚ) ≤ (mkPendulum 1 (1/10) 1 0).massPendulum ∧
    (mkPendulum 1 (1/10) 1 0).length ≠ 0 ∧
    (derivative (fun _ => 0) (fun _ => 1) (mkPendulum 1 (1/10) 1 0) 0 0 none =
      derivAux (fun _ => 0) (fun _ => 1) (mkPendulum 1 (1/10) 1 0) 0
        (0 + kdv none 0) (0 + kdtheta none 0) (0 + kdomega none 0)) ∧
    (mkPendulum 1 (1/10) 1 0).length *
      ((mkPendulum 1 (1/10) 1 0).massCart + (mkPendulum 1 (1/10) 1 0).massPendulum -
       (mkPendulum 1 (1/10) 1 0).massPendulum * 1 * 1) ≠ 0 :=
  ⟨by norm_num, by norm_num [mkPendulum], by norm_num [mkPendulum],
    by norm_num [mkPendulum],
    (denominator_bounded_away (fun _ => 0) (fun _ => 1)
      (fun x => by norm_num) (mkPendulum 1 (1/10) 1 0)
      (by norm_num [mkPendulum]) (by norm_num [mkPendulum])
      0 0 none 1 1).2.2.2.2.2.1,
    (denominator_bounded_away (fun _ => 0) (fun _ => 1)
      (fun x => by norm_num) (mkPendulum 1 (1/10) 1 0)
      (by norm_num [mkPendulum]) (by norm_num [mkPendulum])
      0 0 none 1 1).2.2.2.2.2.2 (by norm_num [mkPendulum])⟩

/-- C10 (counterexample): the constructor accepts `length = 0` while both
mass floors hold, the degenerate guard of `derivative` (which checks only
`denominator`) does not fire, and yet the divisor of the `angularAccel`
division, `length * denominator` in the source, is exactly 0 — so not
every division in `derivative` is by a value bounded away from zero. -/
theorem angular_divisor_zero_at_length_zero :
    (0.1 : ℚ) ≤ (mkPendulum 1 (1/10) 0 0).massCart ∧
    (0.01 : ℚ) ≤ (mkPendulum 1 (1/10) 0 0).massPendulum ∧
    (mkPendulum 1 (1/10) 0 0).length = 0 ∧
    (derivative (fun _ => 0) (fun _ => 1) (mkPendulum 1 (1/10) 0 0) 0 0 none =
      derivAux (fun _ => 0) (fun _ => 1) (mkPendulum 1 (1/10) 0 0) 0
        (0 + kdv none 0) (0 + kdtheta none 0) (0 + kdomega none 0)) ∧
    (mkPendulum 1 (1/10) 0 0).length *
      ((mkPendulum 1 (1/10) 0 0).massCart + (mkPendulum 1 (1/10) 0 0).massPendulum -
       (mkPendulum 1 (1/10) 0 0).massPendulum * 1 * 1) = 0 := by
  refine ⟨by norm_num [mkPendulum], by norm_num [mkPendulum],
    by norm_num [mkPendulum], ?_, by norm_num [mkPendulum]⟩
  norm_num [derivative, derivAux, mkPendulum, kdv, kdtheta, kdomega,
    abs_eq_max_neg, min_def, max_def]
